import Mathlib

/-!
Verification of the bitcoin-watcher signal/trade pipeline.

The repository's core logic lives in `backend/lambda/signal_analyzer.py`
(indicators, signal classification, transition detection, trade
orchestration) and `backend/lambda/binance_trader.py` (exchange client and
quantity normalization).  Decimal quantities and prices are modelled as
rationals; Python's `round` (banker's rounding / round-half-to-even) is
modelled exactly.  Exceptions in Python functions are modelled with
`Except`/`Option`, and the side effects of trade execution (exchange calls
and database writes) are modelled as an explicit trace of effects.
-/

/-- Python's `round(x)` on an exact value: round half to even. -/
def roundHalfEven (x : ℚ) : ℤ :=
  if x - ⌊x⌋ < 1/2 then ⌊x⌋
  else if 1/2 < x - ⌊x⌋ then ⌊x⌋ + 1
  else if ⌊x⌋ % 2 = 0 then ⌊x⌋ else ⌊x⌋ + 1

/-- Python's `round(x, d)`: round to `d` decimal places, half to even. -/
def roundToDec (x : ℚ) (d : ℕ) : ℚ :=
  (roundHalfEven (x * 10 ^ d) : ℚ) / 10 ^ d

/-- The LOT_SIZE filter of a symbol, as returned by `get_symbol_info`. -/
structure LotSizeFilter where
  minQty : ℚ
  maxQty : ℚ
  stepSize : ℚ
deriving DecidableEq

/-- Decimal-place count derived in `calculate_quantity` from
`f"\x7bstep_size:.10f\x7d".rstrip('0')`: for a step size whose denominator
divides `10^10` this is the least `d ≤ 10` with `step * 10^d` integral. -/
def stepDecimals (step : ℚ) : ℕ :=
  match (List.range 11).find? (fun d => (step * 10 ^ d).den == 1) with
  | some d => d
  | none => 10

/-- Well-formedness of an exchange LOT_SIZE filter: positive step whose
denominator divides `10^10` (so the textual derivation of decimals is
exact), ordered bounds, and bounds that are themselves multiples of the
step (as Binance guarantees). -/
def LotSizeFilter.wf (f : LotSizeFilter) : Prop :=
  0 < f.stepSize ∧ f.minQty ≤ f.maxQty ∧ (f.stepSize * 10 ^ 10).den = 1 ∧
    (∃ a : ℤ, f.minQty = (a : ℚ) * f.stepSize) ∧
    (∃ b : ℤ, f.maxQty = (b : ℚ) * f.stepSize)

/-- Core of `BinanceSpotTrader.calculate_quantity` after the raw quantity
is known: round to the step size, clamp into `[minQty, maxQty]`, then round
to the decimal precision derived from the step size's textual form. -/
def normalize_quantity (f : LotSizeFilter) (raw : ℚ) : ℚ :=
  let q0 : ℚ := (roundHalfEven (raw / f.stepSize) : ℚ) * f.stepSize
  let q1 : ℚ := if q0 < f.minQty then f.minQty
    else if f.maxQty < q0 then f.maxQty else q0
  roundToDec q1 (stepDecimals f.stepSize)

/-- `BinanceSpotTrader.calculate_quantity`: size a BUY by
`usdt_amount / current_price` and normalize it. -/
def calculate_quantity (f : LotSizeFilter) (usdt_amount current_price : ℚ) : ℚ :=
  normalize_quantity f (usdt_amount / current_price)

/-- Inline sizing in `BinanceSpotTrader.execute_sell_signal`: percentage of
the free balance, rounded to the step size and to the derived decimals —
note: no clamping into `[minQty, maxQty]` is performed on this path. -/
def sell_quantity (f : LotSizeFilter) (free btc_percentage : ℚ) : ℚ :=
  let raw : ℚ := free * (btc_percentage / 100)
  let q0 : ℚ := (roundHalfEven (raw / f.stepSize) : ℚ) * f.stepSize
  roundToDec q0 (stepDecimals f.stepSize)

/-- Signal type strings used throughout `signal_analyzer.py`. -/
inductive SigType
  | BUY
  | SELL
  | HOLD
deriving DecidableEq, Repr

instance : Fintype SigType :=
  ⟨⟨{SigType.BUY, SigType.SELL, SigType.HOLD}, by decide⟩, by intro x; cases x <;> decide⟩

/-- `calculate_moving_average`: mean of the last `period` prices, `none`
when fewer than `period` samples exist.  The `period = 0` edge keeps
Python's slicing semantics (`prices[-0:]` is the whole list) and its
zero-division failure on an empty list is folded into `none`. -/
def calculate_moving_average (prices : List ℚ) (period : ℕ) : Option ℚ :=
  if prices.length < period then none
  else
    let recent := if period = 0 then prices else prices.drop (prices.length - period)
    if recent.length = 0 then none
    else some (recent.sum / recent.length)

/-- Per-step price changes `prices[i] - prices[i-1]` in `calculate_rsi`. -/
def priceChanges (prices : List ℚ) : List ℚ :=
  (prices.zip prices.tail).map fun pr => pr.2 - pr.1

/-- The per-step gains list built in `calculate_rsi`. -/
def gainsOf (prices : List ℚ) : List ℚ :=
  (priceChanges prices).map fun c => if 0 < c then c else 0

/-- The per-step losses list built in `calculate_rsi` (absolute values). -/
def lossesOf (prices : List ℚ) : List ℚ :=
  (priceChanges prices).map fun c => if 0 < c then 0 else -c

/-- `avg_gain` in `calculate_rsi`: mean of the last `period` gains. -/
def avg_gain (prices : List ℚ) (period : ℕ) : ℚ :=
  ((gainsOf prices).drop ((gainsOf prices).length - period)).sum / period

/-- `avg_loss` in `calculate_rsi`: mean of the last `period` losses. -/
def avg_loss (prices : List ℚ) (period : ℕ) : ℚ :=
  ((lossesOf prices).drop ((lossesOf prices).length - period)).sum / period

/-- `calculate_rsi`: windowed, non-smoothed RSI; neutral 50 with fewer than
`period + 1` samples, 100 when the windowed average loss is zero. -/
def calculate_rsi (prices : List ℚ) (period : ℕ) : ℚ :=
  if prices.length < period + 1 then 50
  else if (gainsOf prices).length < period then 50
  else if avg_loss prices period = 0 then 100
  else 100 - 100 / (1 + avg_gain prices period / avg_loss prices period)

/-- The signal dictionary produced by `analyze_signal` (the early
"insufficient data" return carries a reason and no indicator fields). -/
structure SignalData where
  type : SigType
  price : ℚ
  confidence : ℚ
  short_ma : Option ℚ
  long_ma : Option ℚ
  rsi : Option ℚ
  reason : Option String
deriving DecidableEq, Repr

/-- `analyze_signal`: MA-crossover classification with RSI confirmation.
Returns `none` where the Python function raises (a `None` moving average
used in a comparison). -/
def analyze_signal (prices : List ℚ) (short_period long_period : ℕ)
    (buy_threshold sell_threshold : ℚ) (rsi_period : ℕ)
    (rsi_overbought rsi_oversold : ℚ) : Option SignalData :=
  if prices.length < long_period then
    some { type := .HOLD, price := (prices.getLast?).getD 0, confidence := 0,
           short_ma := none, long_ma := none, rsi := none,
           reason := some "Insufficient data for MA" }
  else
    match calculate_moving_average prices short_period,
        calculate_moving_average prices long_period with
    | some short_ma, some long_ma =>
      let rsi := calculate_rsi prices rsi_period
      let current_price := (prices.getLast?).getD 0
      let ma_buy_signal := short_ma < long_ma * (1 - buy_threshold)
      let ma_sell_signal := long_ma * (1 + sell_threshold) < short_ma
      let rsi_buy_signal := rsi < rsi_oversold
      let rsi_sell_signal := rsi_overbought < rsi
      let st : SigType × ℚ :=
        if ma_buy_signal ∧ rsi_buy_signal then
          (.BUY, min 100 (50 + (rsi_oversold - rsi) * 2))
        else if ma_sell_signal ∧ rsi_sell_signal then
          (.SELL, min 100 (50 + (rsi - rsi_overbought) * 2))
        else (.HOLD, 50)
      some { type := st.1, price := current_price,
             confidence := roundToDec st.2 2,
             short_ma := some (roundToDec short_ma 2),
             long_ma := some (roundToDec long_ma 2),
             rsi := some (roundToDec rsi 2), reason := none }
    | _, _ => none

/-- The `signal_changed` condition in `lambda_handler`: the new type is BUY
or SELL, and there is no prior persisted signal or its type differs. -/
def signal_changed (newType : SigType) (last : Option SigType) : Bool :=
  (newType == SigType.BUY || newType == SigType.SELL) &&
    (match last with
     | none => true
     | some t => t != newType)

/-- One fill of a placed order, as reported by the exchange. -/
structure Fill where
  price : ℚ
  qty : ℚ
  commission : ℚ
deriving DecidableEq, Repr

/-- The order dictionary returned by `place_market_order`. -/
structure OrderResult where
  orderId : ℕ
  symbol : String
  side : String
  orderType : String
  status : String
  executedQty : ℚ
  fills : List Fill
deriving DecidableEq, Repr

/-- `total_qty` in `store_trade`: sum of fill quantities. -/
def fillsTotalQty (fills : List Fill) : ℚ :=
  (fills.map Fill.qty).sum

/-- Total commission across fills (computed in `format_trade_summary`,
never stored by `store_trade`). -/
def fillsTotalCommission (fills : List Fill) : ℚ :=
  (fills.map Fill.commission).sum

/-- `avg_price` in `store_trade`: quantity-weighted average fill price,
zero when the total filled quantity is not positive. -/
def avgFillPrice (fills : List Fill) : ℚ :=
  if 0 < fillsTotalQty fills then
    (fills.map fun fl => fl.price * fl.qty).sum / fillsTotalQty fills
  else 0

/-- A value stored in a MongoDB document field. -/
inductive FieldVal
  | str (s : String)
  | num (q : ℚ)
  | nat (n : ℕ)
  | fills (l : List Fill)
  | time
deriving DecidableEq, Repr

/-- The `trade_doc` dictionary built by `store_trade`, key by key. -/
def mkTradeDoc (r : OrderResult) (signal_id : String) (sig : SignalData) :
    List (String × FieldVal) :=
  [("timestamp", .time),
   ("signal_id", .str signal_id),
   ("binance_order_id", .nat r.orderId),
   ("symbol", .str r.symbol),
   ("side", .str r.side),
   ("type", .str r.orderType),
   ("status", .str r.status),
   ("executed_qty", .num r.executedQty),
   ("average_price", .num (avgFillPrice r.fills)),
   ("signal_price", .num sig.price),
   ("signal_confidence", .num sig.confidence),
   ("fills", .fills r.fills)]

/-- Error raised during trade execution (the text stored by
`store_failed_trade` is `str(e)` of the exception). -/
inductive TradeErr
  | api (msg : String)
  | insufficientBalance
  | noAssetToSell
  | db (msg : String)
deriving DecidableEq, Repr

/-- The `failed_trade_doc` persisted by `store_failed_trade`. -/
structure FailedTradeDoc where
  signal_id : String
  signal_type : SigType
  signal_price : ℚ
  error : TradeErr
deriving DecidableEq, Repr

deriving instance DecidableEq for Except

/-- Responses of the exchange for one execution cycle.  `ping_ok` is the
boolean returned by `test_connection` (which never raises); every other
interaction may fail with an exception. -/
structure ExchangeEnv where
  ping_ok : Bool
  usdt_free : Except TradeErr ℚ
  btc_free : Except TradeErr ℚ
  price : Except TradeErr ℚ
  lot : Except TradeErr LotSizeFilter
  order : Except TradeErr OrderResult
deriving DecidableEq

/-- Environment of one `execute_trade` call: credential fetch, exchange
responses, and the outcome of the `store_trade` database insert. -/
structure TradeEnv where
  creds : Except TradeErr Unit
  exch : ExchangeEnv
  store_trade_ok : Except TradeErr Unit
deriving DecidableEq

/-- Observable side effects of trade execution, in order. -/
inductive Effect
  | ping
  | getBalance (asset : String)
  | getPrice
  | getSymbolInfo
  | placeOrder (symbol side : String) (qty : ℚ)
  | storeTrade (doc : List (String × FieldVal))
  | storeFailedTrade (doc : FailedTradeDoc)
deriving DecidableEq, Repr

/-- `BinanceSpotTrader.execute_buy_signal`: check the free USDT balance,
fetch the price, size and normalize the quantity (`calculate_quantity`,
which fetches the symbol rules), and place a market BUY. -/
def execute_buy_signal (ex : ExchangeEnv) (usdt_amount : ℚ) :
    Except TradeErr OrderResult × List Effect :=
  match ex.usdt_free with
  | .error e => (.error e, [.getBalance "USDT"])
  | .ok free =>
    if free < usdt_amount then
      (.error .insufficientBalance, [.getBalance "USDT"])
    else
      match ex.price with
      | .error e => (.error e, [.getBalance "USDT", .getPrice])
      | .ok current_price =>
        match ex.lot with
        | .error e => (.error e, [.getBalance "USDT", .getPrice, .getSymbolInfo])
        | .ok f =>
          let quantity := calculate_quantity f usdt_amount current_price
          match ex.order with
          | .error e =>
            (.error e, [.getBalance "USDT", .getPrice, .getSymbolInfo,
              .placeOrder "BTCUSDT" "BUY" quantity])
          | .ok r =>
            (.ok r, [.getBalance "USDT", .getPrice, .getSymbolInfo,
              .placeOrder "BTCUSDT" "BUY" quantity])

/-- `BinanceSpotTrader.execute_sell_signal`: check the free BTC balance,
size a percentage of it against the symbol rules (no min/max clamp),
fetch the reference price, and place a market SELL. -/
def execute_sell_signal (ex : ExchangeEnv) (btc_percentage : ℚ) :
    Except TradeErr OrderResult × List Effect :=
  match ex.btc_free with
  | .error e => (.error e, [.getBalance "BTC"])
  | .ok free =>
    if free ≤ 0 then
      (.error .noAssetToSell, [.getBalance "BTC"])
    else
      match ex.lot with
      | .error e => (.error e, [.getBalance "BTC", .getSymbolInfo])
      | .ok f =>
        let quantity_to_sell := sell_quantity f free btc_percentage
        match ex.price with
        | .error e => (.error e, [.getBalance "BTC", .getSymbolInfo, .getPrice])
        | .ok _ =>
          match ex.order with
          | .error e =>
            (.error e, [.getBalance "BTC", .getSymbolInfo, .getPrice,
              .placeOrder "BTCUSDT" "SELL" quantity_to_sell])
          | .ok r =>
            (.ok r, [.getBalance "BTC", .getSymbolInfo, .getPrice,
              .placeOrder "BTCUSDT" "SELL" quantity_to_sell])

/-- Trading-relevant settings consumed by `execute_trade`. -/
structure Settings where
  trading_enabled : Bool
  trading_mode : String
  trade_amount_usdt : ℚ
  sell_percentage : ℚ
deriving DecidableEq

/-- The body of `execute_trade`'s `try` block after the enablement and
signal-type checks: fetch credentials, probe connectivity (the boolean
result of `test_connection` is discarded by the code), run the BUY or SELL
path, and store the trade record on success. -/
def execute_trade_attempt (env : TradeEnv) (sig : SignalData)
    (signal_id : String) (settings : Settings) :
    Except TradeErr OrderResult × List Effect :=
  match env.creds with
  | .error e => (.error e, [])
  | .ok _ =>
    let inner :=
      if sig.type = SigType.BUY then
        execute_buy_signal env.exch settings.trade_amount_usdt
      else
        execute_sell_signal env.exch settings.sell_percentage
    match inner with
    | (.error e, eff) => (.error e, Effect.ping :: eff)
    | (.ok r, eff) =>
      match env.store_trade_ok with
      | .error e =>
        (.error e, Effect.ping :: eff ++ [Effect.storeTrade (mkTradeDoc r signal_id sig)])
      | .ok _ =>
        (.ok r, Effect.ping :: eff ++ [Effect.storeTrade (mkTradeDoc r signal_id sig)])

/-- `execute_trade` in `signal_analyzer.py`: returns `none` ("not
executed") with no effects when trading is disabled or the signal is not
BUY/SELL; otherwise runs the attempt, converting any exception into a
persisted `FailedTradeDoc` and a `none` result. -/
def execute_trade (env : TradeEnv) (sig : SignalData) (signal_id : String)
    (settings : Settings) : Option OrderResult × List Effect :=
  if ¬ settings.trading_enabled then (none, [])
  else if sig.type ≠ SigType.BUY ∧ sig.type ≠ SigType.SELL then (none, [])
  else
    match execute_trade_attempt env sig signal_id settings with
    | (.ok r, eff) => (some r, eff)
    | (.error e, eff) =>
      (none, eff ++ [.storeFailedTrade ⟨signal_id, sig.type, sig.price, e⟩])

theorem roundHalfEven_intCast (n : ℤ) : roundHalfEven (n : ℚ) = n := by
  norm_num [roundHalfEven]

theorem roundHalfEven_den_one (x : ℚ) (h : x.den = 1) :
    (roundHalfEven x : ℚ) = x := by
  have hx : (x.num : ℚ) = x := (Rat.den_eq_one_iff x).mp h
  rw [← hx, roundHalfEven_intCast]

theorem roundToDec_eq_self (x : ℚ) (d : ℕ) (h : (x * 10 ^ d).den = 1) :
    roundToDec x d = x := by
  unfold roundToDec
  rw [roundHalfEven_den_one _ h]
  field_simp

theorem intCast_mul_den_one (k : ℤ) (y : ℚ) (h : y.den = 1) :
    ((k : ℚ) * y).den = 1 := by
  have hy : (y.num : ℚ) = y := (Rat.den_eq_one_iff y).mp h
  rw [← hy, ← Int.cast_mul]
  exact Rat.den_intCast _

theorem stepDecimals_den_one (step : ℚ) (h : (step * 10 ^ 10).den = 1) :
    (step * 10 ^ (stepDecimals step)).den = 1 := by
  unfold stepDecimals
  cases hf : (List.range 11).find? (fun d => (step * 10 ^ d).den == 1) with
  | some d =>
    have := List.find?_some hf
    simpa using this
  | none =>
    have h10 := List.find?_eq_none.mp hf 10 (by simp)
    simp [h] at h10

theorem roundToDec_step_multiple (f : LotSizeFilter)
    (hden : (f.stepSize * 10 ^ 10).den = 1) (k : ℤ) :
    roundToDec ((k : ℚ) * f.stepSize) (stepDecimals f.stepSize) =
      (k : ℚ) * f.stepSize := by
  apply roundToDec_eq_self
  have h1 := stepDecimals_den_one f.stepSize hden
  have hre : (k : ℚ) * f.stepSize * 10 ^ (stepDecimals f.stepSize) =
      (k : ℚ) * (f.stepSize * 10 ^ (stepDecimals f.stepSize)) := by ring
  rw [hre]
  exact intCast_mul_den_one k _ h1

theorem normalize_quantity_spec (f : LotSizeFilter) (raw : ℚ) (hf : f.wf) :
    (∃ k : ℤ, normalize_quantity f raw = (k : ℚ) * f.stepSize) ∧
      f.minQty ≤ normalize_quantity f raw ∧
      normalize_quantity f raw ≤ f.maxQty := by
  obtain ⟨hstep, hmm, hden, ⟨a, ha⟩, ⟨b, hb⟩⟩ := hf
  unfold normalize_quantity
  by_cases h1 : (roundHalfEven (raw / f.stepSize) : ℚ) * f.stepSize < f.minQty
  · simp only [h1, if_pos]
    rw [ha, roundToDec_step_multiple f hden a]
    exact ⟨⟨a, rfl⟩, le_refl _, by rw [← ha]; exact hmm⟩
  · by_cases h2 : f.maxQty < (roundHalfEven (raw / f.stepSize) : ℚ) * f.stepSize
    · simp only [h1, h2, if_neg, if_pos, not_false_iff]
      rw [hb, roundToDec_step_multiple f hden b]
      exact ⟨⟨b, rfl⟩, by rw [← hb]; exact hmm, le_refl _⟩
    · simp only [h1, h2, if_neg, not_false_iff]
      rw [roundToDec_step_multiple f hden _]
      exact ⟨⟨_, rfl⟩, not_lt.mp h1, not_lt.mp h2⟩

theorem normalize_quantity_fixed (f : LotSizeFilter) (q : ℚ) (hf : f.wf)
    (hk : ∃ k : ℤ, q = (k : ℚ) * f.stepSize)
    (h1 : f.minQty ≤ q) (h2 : q ≤ f.maxQty) :
    normalize_quantity f q = q := by
  obtain ⟨hstep, hmm, hden, _, _⟩ := hf
  obtain ⟨k, rfl⟩ := hk
  simp only [normalize_quantity]
  rw [mul_div_cancel_right₀ _ (ne_of_gt hstep), roundHalfEven_intCast,
    if_neg (not_lt.mpr h1), if_neg (not_lt.mpr h2)]
  exact roundToDec_step_multiple f hden k

theorem sell_quantity_multiple (f : LotSizeFilter) (free pct : ℚ)
    (hden : (f.stepSize * 10 ^ 10).den = 1) :
    ∃ k : ℤ, sell_quantity f free pct = (k : ℚ) * f.stepSize := by
  unfold sell_quantity
  exact ⟨roundHalfEven (free * (pct / 100) / f.stepSize),
    roundToDec_step_multiple f hden _⟩

theorem execute_buy_signal_placeOrder (ex : ExchangeEnv) (amt : ℚ)
    (sym side : String) (q : ℚ)
    (h : Effect.placeOrder sym side q ∈ (execute_buy_signal ex amt).2) :
    side = "BUY" ∧ ∃ price f, ex.price = .ok price ∧ ex.lot = .ok f ∧
      q = calculate_quantity f amt price := by
  unfold execute_buy_signal at h
  repeat' split at h
  all_goals simp_all

theorem execute_sell_signal_placeOrder (ex : ExchangeEnv) (pct : ℚ)
    (sym side : String) (q : ℚ)
    (h : Effect.placeOrder sym side q ∈ (execute_sell_signal ex pct).2) :
    side = "SELL" ∧ ∃ free f, ex.btc_free = .ok free ∧ ex.lot = .ok f ∧
      q = sell_quantity f free pct := by
  unfold execute_sell_signal at h
  repeat' split at h
  all_goals simp_all


theorem execute_trade_attempt_placeOrder (env : TradeEnv) (sig : SignalData)
    (signal_id : String) (settings : Settings) (sym side : String) (q : ℚ)
    (h : Effect.placeOrder sym side q ∈
      (execute_trade_attempt env sig signal_id settings).2) :
    (sig.type = SigType.BUY ∧ Effect.placeOrder sym side q ∈
        (execute_buy_signal env.exch settings.trade_amount_usdt).2) ∨
    (sig.type ≠ SigType.BUY ∧ Effect.placeOrder sym side q ∈
        (execute_sell_signal env.exch settings.sell_percentage).2) := by
  unfold execute_trade_attempt at h
  rcases hc : env.creds with e | u <;> rw [hc] at h
  · simp at h
  by_cases hty : sig.type = SigType.BUY
  · rw [if_pos hty] at h
    refine Or.inl ⟨hty, ?_⟩
    rcases hb : execute_buy_signal env.exch settings.trade_amount_usdt with ⟨res, eff⟩
    rw [hb] at h
    rcases res with e | r
    · simp at h; exact h
    · rcases hs : env.store_trade_ok with e2 | u2 <;> rw [hs] at h <;>
        (simp at h; exact h)
  · rw [if_neg hty] at h
    refine Or.inr ⟨hty, ?_⟩
    rcases hb : execute_sell_signal env.exch settings.sell_percentage with ⟨res, eff⟩
    rw [hb] at h
    rcases res with e | r
    · simp at h; exact h
    · rcases hs : env.store_trade_ok with e2 | u2 <;> rw [hs] at h <;>
        (simp at h; exact h)




theorem execute_trade_placeOrder (env : TradeEnv) (sig : SignalData)
    (signal_id : String) (settings : Settings) (sym side : String) (q : ℚ)
    (h : Effect.placeOrder sym side q ∈
      (execute_trade env sig signal_id settings).2) :
    (sig.type = SigType.BUY ∧ Effect.placeOrder sym side q ∈
        (execute_buy_signal env.exch settings.trade_amount_usdt).2) ∨
    (sig.type ≠ SigType.BUY ∧ Effect.placeOrder sym side q ∈
        (execute_sell_signal env.exch settings.sell_percentage).2) := by
  apply execute_trade_attempt_placeOrder env sig signal_id settings sym side q
  unfold execute_trade at h
  rcases hen : settings.trading_enabled with _ | _ <;> rw [hen] at h
  · simp at h
  rcases hty : sig.type <;> rw [hty] at h
  case HOLD => rw [if_neg (by simp), if_pos (by simp)] at h; simp at h
  all_goals
    rw [if_neg (by simp), if_neg (by simp)] at h
  all_goals
    split at h <;> rename_i heq <;> rw [heq] <;> simpa using h

/-- The concrete BTCUSDT LOT_SIZE filter used in counterexamples and
witnesses: minQty 0.00001, maxQty 9000, stepSize 0.00001. -/
def lotBTC : LotSizeFilter :=
  { minQty := 1/100000, maxQty := 9000, stepSize := 1/100000 }

theorem lotBTC_wf : lotBTC.wf := by
  refine ⟨by norm_num [lotBTC], by norm_num [lotBTC], by norm_num [lotBTC], ⟨1, ?_⟩, ⟨900000000, ?_⟩⟩ <;>
    norm_num [lotBTC]

/-- A successful order response used in concrete scenarios. -/
def orderOk : OrderResult :=
  { orderId := 12345, symbol := "BTCUSDT", side := "BUY", orderType := "MARKET",
    status := "FILLED", executedQty := 1/2500,
    fills := [{ price := 50000, qty := 1/2500, commission := 1/50 }] }

/-- A trade environment in which the connectivity probe fails while every
other exchange interaction succeeds. -/
def envPingDown : TradeEnv :=
  { creds := .ok (),
    exch := { ping_ok := false, usdt_free := .ok 1000, btc_free := .ok 1,
              price := .ok 50000, lot := .ok lotBTC, order := .ok orderOk },
    store_trade_ok := .ok () }

/-- A BUY signal as classified, with price and confidence fields. -/
def sigBuy : SignalData :=
  { type := .BUY, price := 50000, confidence := 80,
    short_ma := some 49000, long_ma := some 50000, rsi := some 25, reason := none }

/-- Enabled trading settings: testnet, 20 USDT spend, 100% sell. -/
def settingsOn : Settings :=
  { trading_enabled := true, trading_mode := "testnet",
    trade_amount_usdt := 20, sell_percentage := 100 }

/-- A SELL signal as classified. -/
def sigSell : SignalData :=
  { type := .SELL, price := 50000, confidence := 80,
    short_ma := some 51000, long_ma := some 50000, rsi := some 75, reason := none }

/-- A trade environment holding only a dust BTC balance (0.000001 BTC),
below the minimum order quantity, with all exchange calls succeeding. -/
def envDust : TradeEnv :=
  { creds := .ok (),
    exch := { ping_ok := true, usdt_free := .ok 1000, btc_free := .ok (1/1000000),
              price := .ok 50000, lot := .ok lotBTC, order := .ok orderOk },
    store_trade_ok := .ok () }

/-- C1 counterexample: with a dust BTC balance of 0.000001 and
sell_percentage 100, the SELL path of `execute_trade` passes quantity 0 to
`place_market_order`, which is not within `[minQty, maxQty]`
(0 < minQty = 0.00001): the claimed invariant fails on the SELL path. -/
theorem claim1_sell_below_min_counterexample :
    Effect.placeOrder "BTCUSDT" "SELL" 0 ∈
        (execute_trade envDust sigSell "s2" settingsOn).2 ∧
      ¬ lotBTC.minQty ≤ 0 := by
  with_unfolding_all decide

/-- C1 (amended): every quantity passed to `place_market_order` by
`execute_trade` is a multiple of the symbol's stepSize (given well-formed
LOT_SIZE rules); on the BUY path, which clamps in `calculate_quantity`, it
additionally lies within `[minQty, maxQty]`, but the SELL path performs no
clamping, so SELL quantities carry no range guarantee. -/
theorem claim1_order_quantity_normalized (env : TradeEnv) (sig : SignalData)
    (signal_id : String) (settings : Settings) (sym side : String) (q : ℚ)
    (f : LotSizeFilter) (hlot : env.exch.lot = .ok f) (hwf : f.wf)
    (h : Effect.placeOrder sym side q ∈
      (execute_trade env sig signal_id settings).2) :
    (∃ k : ℤ, q = (k : ℚ) * f.stepSize) ∧
      (side = "BUY" → f.minQty ≤ q ∧ q ≤ f.maxQty) := by
  rcases execute_trade_placeOrder env sig signal_id settings sym side q h with
    ⟨_, hmem⟩ | ⟨_, hmem⟩
  · obtain ⟨hside, price, f2, _, hl2, hq⟩ :=
      execute_buy_signal_placeOrder env.exch settings.trade_amount_usdt sym side q hmem
    rw [hlot] at hl2
    cases hl2
    obtain ⟨hk, h1, h2⟩ :=
      normalize_quantity_spec f (settings.trade_amount_usdt / price) hwf
    rw [calculate_quantity] at hq
    subst hq
    exact ⟨hk, fun _ => ⟨h1, h2⟩⟩
  · obtain ⟨hside, free, f2, _, hl2, hq⟩ :=
      execute_sell_signal_placeOrder env.exch settings.sell_percentage sym side q hmem
    rw [hlot] at hl2
    cases hl2
    subst hq
    refine ⟨sell_quantity_multiple f free settings.sell_percentage hwf.2.2.1, ?_⟩
    intro hBuy
    rw [hside] at hBuy
    exact absurd hBuy (by decide)

/-- Witness for C1 (amended) at the concrete BUY scenario: the order
quantity 0.0004 = 20 / 50000 is a multiple of stepSize 0.00001 and lies in
[0.00001, 9000]. -/
theorem calcq_lotBTC : calculate_quantity lotBTC 20 50000 = 1/2500 := by
  have h : (20 : ℚ) / 50000 = 1/2500 := by norm_num
  rw [calculate_quantity, h]
  exact normalize_quantity_fixed lotBTC (1/2500) lotBTC_wf
    ⟨40, by norm_num [lotBTC]⟩ (by norm_num [lotBTC]) (by norm_num [lotBTC])

/-- Witness for C1 (amended) at the concrete BUY scenario: the order
quantity 0.0004 = 20 / 50000 is a multiple of stepSize 0.00001 and lies in
[0.00001, 9000]. -/
theorem claim1_order_quantity_normalized_witness :
    envPingDown.exch.lot = Except.ok lotBTC ∧
      Effect.placeOrder "BTCUSDT" "BUY" (1/2500) ∈
        (execute_trade envPingDown sigBuy "s1" settingsOn).2 ∧
      ((∃ k : ℤ, (1/2500 : ℚ) = (k : ℚ) * lotBTC.stepSize) ∧
        ("BUY" = "BUY" → lotBTC.minQty ≤ 1/2500 ∧ (1/2500 : ℚ) ≤ lotBTC.maxQty)) :=
  ⟨rfl,
    by norm_num [execute_trade, execute_trade_attempt, execute_buy_signal,
      envPingDown, sigBuy, settingsOn, calcq_lotBTC],
    claim1_order_quantity_normalized envPingDown sigBuy "s1" settingsOn
      "BTCUSDT" "BUY" (1/2500) lotBTC rfl lotBTC_wf
      (by norm_num [execute_trade, execute_trade_attempt, execute_buy_signal,
        envPingDown, sigBuy, settingsOn, calcq_lotBTC])⟩

/-- C4: quantity normalization is idempotent — for fixed well-formed
symbol rules and price, re-normalizing a quantity that
`calculate_quantity` already produced returns that same quantity. -/
theorem claim4_normalization_idempotent (f : LotSizeFilter)
    (usdt_amount current_price : ℚ) (hwf : f.wf) :
    normalize_quantity f (calculate_quantity f usdt_amount current_price) =
      calculate_quantity f usdt_amount current_price := by
  obtain ⟨hk, h1, h2⟩ :=
    normalize_quantity_spec f (usdt_amount / current_price) hwf
  exact normalize_quantity_fixed f _ hwf hk h1 h2

/-- Witness for C4 at the BTCUSDT rules, spending 20 USDT at price 50000. -/
theorem claim4_normalization_idempotent_witness :
    lotBTC.wf ∧
      normalize_quantity lotBTC (calculate_quantity lotBTC 20 50000) =
        calculate_quantity lotBTC 20 50000 :=
  ⟨lotBTC_wf, claim4_normalization_idempotent lotBTC 20 50000 lotBTC_wf⟩

/-- Recognizer for the `storeFailedTrade` effect. -/
def Effect.isFailedStore : Effect → Bool
  | .storeFailedTrade _ => true
  | _ => false

/-- Recognizer for the `placeOrder` effect. -/
def Effect.isPlaceOrder : Effect → Bool
  | .placeOrder _ _ _ => true
  | _ => false

/-- C2: in `execute_trade` the boolean returned by `test_connection` is
discarded, so a failed connectivity probe does not abort the attempt: with
`ping_ok = false` and all other calls succeeding, the BUY order is still
placed, further exchange calls are made after the probe, and no
FailedTradeRecord is stored — contradicting the specified abort-on-failure
behaviour. -/
theorem claim2_connectivity_failure_not_aborting :
    envPingDown.exch.ping_ok = false ∧
      (execute_trade envPingDown sigBuy "s1" settingsOn).1 = some orderOk ∧
      Effect.placeOrder "BTCUSDT" "BUY" (1/2500) ∈
        (execute_trade envPingDown sigBuy "s1" settingsOn).2 ∧
      (execute_trade envPingDown sigBuy "s1" settingsOn).2.filter
          Effect.isFailedStore = [] := by
  refine ⟨rfl, ?_, ?_, ?_⟩ <;>
    norm_num [execute_trade, execute_trade_attempt, execute_buy_signal,
      envPingDown, sigBuy, settingsOn, calcq_lotBTC, Effect.isFailedStore]

/-- C5: trade failures are contained in `execute_trade`.  (1) Whenever the
attempted execution raises error `e`, `execute_trade` returns the
not-executed result `none` and appends a FailedTradeRecord carrying `e` —
it never propagates the failure.  (2) A credential-fetch failure yields
exactly a FailedTradeRecord and no exchange calls.  (3) An insufficient
USDT balance on the BUY path yields exactly the probe, the balance read,
and a FailedTradeRecord with the insufficient-balance error. -/
theorem claim5_trade_failures_contained :
    (∀ (env : TradeEnv) (sig : SignalData) (signal_id : String)
        (settings : Settings) (e : TradeErr) (eff : List Effect),
      settings.trading_enabled = true →
      (sig.type = SigType.BUY ∨ sig.type = SigType.SELL) →
      execute_trade_attempt env sig signal_id settings = (.error e, eff) →
      execute_trade env sig signal_id settings =
        (none, eff ++ [.storeFailedTrade ⟨signal_id, sig.type, sig.price, e⟩])) ∧
    (∀ (env : TradeEnv) (sig : SignalData) (signal_id : String)
        (settings : Settings) (e : TradeErr),
      env.creds = .error e →
      settings.trading_enabled = true →
      (sig.type = SigType.BUY ∨ sig.type = SigType.SELL) →
      execute_trade env sig signal_id settings =
        (none, [.storeFailedTrade ⟨signal_id, sig.type, sig.price, e⟩])) ∧
    (∀ (env : TradeEnv) (sig : SignalData) (signal_id : String)
        (settings : Settings) (free : ℚ),
      sig.type = SigType.BUY →
      env.exch.usdt_free = .ok free →
      free < settings.trade_amount_usdt →
      settings.trading_enabled = true →
      (∃ u, env.creds = .ok u) →
      execute_trade env sig signal_id settings =
        (none, [.ping, .getBalance "USDT",
          .storeFailedTrade ⟨signal_id, SigType.BUY, sig.price,
            .insufficientBalance⟩])) := by
  refine ⟨?_, ?_, ?_⟩
  · intro env sig signal_id settings e eff hen hty hatt
    unfold execute_trade
    rw [if_neg (by simp [hen]), if_neg (by rcases hty with h | h <;> simp [h]), hatt]
  · intro env sig signal_id settings e hc hen hty
    unfold execute_trade
    rw [if_neg (by simp [hen]), if_neg (by rcases hty with h | h <;> simp [h])]
    simp [execute_trade_attempt, hc]
  · intro env sig signal_id settings free hty hu hlt hen hcr
    obtain ⟨u, hc⟩ := hcr
    unfold execute_trade
    rw [if_neg (by simp [hen]), if_neg (by simp [hty])]
    simp [execute_trade_attempt, execute_buy_signal, hc, hu, hty, if_pos hlt]

/-- An environment with only 5 USDT free while settings spend 20. -/
def envLowBalance : TradeEnv :=
  { creds := .ok (),
    exch := { ping_ok := true, usdt_free := .ok 5, btc_free := .ok 1,
              price := .ok 50000, lot := .ok lotBTC, order := .ok orderOk },
    store_trade_ok := .ok () }

/-- Witness for C5 at the insufficient-balance scenario (balance 5,
configured spend 20): not executed, one FailedTradeRecord, no order. -/
theorem claim5_trade_failures_contained_witness :
    execute_trade envLowBalance sigBuy "s3" settingsOn =
      (none, [.ping, .getBalance "USDT",
        .storeFailedTrade ⟨"s3", SigType.BUY, sigBuy.price,
          .insufficientBalance⟩]) :=
  claim5_trade_failures_contained.2.2 envLowBalance sigBuy "s3" settingsOn 5
    rfl rfl (by norm_num [envLowBalance, settingsOn]) rfl ⟨(), rfl⟩

/-- C6: when trading is disabled, or the signal type is neither BUY nor
SELL, `execute_trade` returns the not-executed result with an empty effect
trace: no exchange-client call and no database write happens. -/
theorem claim6_disabled_no_side_effects (env : TradeEnv) (sig : SignalData)
    (signal_id : String) (settings : Settings)
    (h : settings.trading_enabled = false ∨
      (sig.type ≠ SigType.BUY ∧ sig.type ≠ SigType.SELL)) :
    execute_trade env sig signal_id settings = (none, []) := by
  rcases h with h | h
  · unfold execute_trade
    rw [if_pos (by simp [h])]
  · unfold execute_trade
    by_cases hen : settings.trading_enabled
    · rw [if_neg (by simp [hen]), if_pos h]
    · rw [if_pos (by simp [hen])]

/-- Disabled-trading settings. -/
def settingsOff : Settings :=
  { trading_enabled := false, trading_mode := "testnet",
    trade_amount_usdt := 20, sell_percentage := 100 }

/-- Witness for C6: disabled settings at a fully-working environment give
no result and zero effects. -/
theorem claim6_disabled_no_side_effects_witness :
    execute_trade envPingDown sigBuy "s4" settingsOff = (none, []) :=
  claim6_disabled_no_side_effects envPingDown sigBuy "s4" settingsOff
    (Or.inl rfl)

/-- C3: `lambda_handler` declares a signal transition iff the new type is
BUY or SELL and (no prior persisted signal exists or its type differs);
hence a new HOLD never produces a transition and a repeated BUY/SELL does
not re-trigger. -/
theorem claim3_transition_iff :
    (∀ (n : SigType) (l : Option SigType),
      signal_changed n l = true ↔
        ((n = SigType.BUY ∨ n = SigType.SELL) ∧ (l = none ∨ l ≠ some n))) ∧
    (∀ l : Option SigType, signal_changed SigType.HOLD l = false) ∧
    (∀ t : SigType, signal_changed t (some t) = false) := by
  refine ⟨?_, ?_, ?_⟩ <;> decide

/-- C7 counterexample: for a successfully placed order whose single fill
carries commission 0.02, the document persisted by `store_trade` has no
`commission_total` field at all — the claim that the TradeRecord carries
the summed commission fails. -/
theorem claim7_commission_not_persisted_counterexample :
    fillsTotalCommission orderOk.fills = 1/50 ∧
      (mkTradeDoc orderOk "s1" sigBuy).lookup "commission_total" = none := by
  constructor
  · norm_num [fillsTotalCommission, orderOk]
  · simp [mkTradeDoc, List.lookup]

/-- C7 (amended): the persisted trade document's `average_price` equals
Σ(fill.price × fill.qty) / Σ(fill.qty) over the reported fills whenever
the total filled quantity is positive (and 0 otherwise), and the raw fills
list is stored verbatim — but no `commission_total` field is persisted. -/
theorem claim7_trade_doc_average_price (r : OrderResult)
    (signal_id : String) (sig : SignalData) :
    (mkTradeDoc r signal_id sig).lookup "average_price" =
      some (.num (if 0 < (r.fills.map Fill.qty).sum then
        (r.fills.map fun fl => fl.price * fl.qty).sum /
          (r.fills.map Fill.qty).sum
        else 0)) ∧
    (mkTradeDoc r signal_id sig).lookup "fills" = some (.fills r.fills) ∧
    (mkTradeDoc r signal_id sig).lookup "commission_total" = none := by
  refine ⟨?_, ?_, ?_⟩ <;>
    simp [mkTradeDoc, List.lookup, avgFillPrice, fillsTotalQty]

/-- C8: with fewer price samples than `long_period`, `analyze_signal`
returns a HOLD signal with confidence 0 (and the last price, or 0 if the
sequence is empty). -/
theorem claim8_insufficient_data_hold (prices : List ℚ)
    (short_period long_period : ℕ) (buy_threshold sell_threshold : ℚ)
    (rsi_period : ℕ) (rsi_overbought rsi_oversold : ℚ)
    (h : prices.length < long_period) :
    analyze_signal prices short_period long_period buy_threshold
        sell_threshold rsi_period rsi_overbought rsi_oversold =
      some { type := .HOLD, price := (prices.getLast?).getD 0,
             confidence := 0, short_ma := none, long_ma := none, rsi := none,
             reason := some "Insufficient data for MA" } := by
  unfold analyze_signal
  rw [if_pos h]

/-- Witness for C8: one sample against long_period 25. -/
theorem claim8_insufficient_data_hold_witness :
    ([(100:ℚ)].length < 25) ∧
      analyze_signal [(100:ℚ)] 7 25 (3/1000) (3/1000) 14 70 30 =
        some { type := .HOLD, price := 100, confidence := 0,
               short_ma := none, long_ma := none, rsi := none,
               reason := some "Insufficient data for MA" } :=
  ⟨by norm_num,
    claim8_insufficient_data_hold [(100:ℚ)] 7 25 (3/1000) (3/1000) 14 70 30
      (by norm_num)⟩

/-- C10: on the empty price sequence `analyze_signal` is total (for any
positive long period): it returns HOLD with price 0 and confidence 0
rather than failing on the last-element access. -/
theorem claim10_empty_prices_total (short_period long_period : ℕ)
    (buy_threshold sell_threshold : ℚ) (rsi_period : ℕ)
    (rsi_overbought rsi_oversold : ℚ) (h : 0 < long_period) :
    analyze_signal [] short_period long_period buy_threshold sell_threshold
        rsi_period rsi_overbought rsi_oversold =
      some { type := .HOLD, price := 0, confidence := 0, short_ma := none,
             long_ma := none, rsi := none,
             reason := some "Insufficient data for MA" } := by
  unfold analyze_signal
  rw [if_pos (by simpa using h)]
  rfl

/-- Witness for C10 at the default configuration (7/25/14). -/
theorem claim10_empty_prices_total_witness :
    0 < 25 ∧
      analyze_signal [] 7 25 (3/1000) (3/1000) 14 70 30 =
        some { type := .HOLD, price := 0, confidence := 0, short_ma := none,
               long_ma := none, rsi := none,
               reason := some "Insufficient data for MA" } :=
  ⟨by norm_num,
    claim10_empty_prices_total 7 25 (3/1000) (3/1000) 14 70 30 (by norm_num)⟩

theorem priceChanges_length (prices : List ℚ) :
    (priceChanges prices).length = prices.length - 1 := by
  simp [priceChanges]

theorem gainsOf_length (prices : List ℚ) :
    (gainsOf prices).length = prices.length - 1 := by
  simp [gainsOf, priceChanges_length]

theorem lossesOf_nonneg (prices : List ℚ) :
    ∀ x ∈ lossesOf prices, 0 ≤ x := by
  intro x hx
  simp only [lossesOf, List.mem_map] at hx
  obtain ⟨c, hc, rfl⟩ := hx
  by_cases h : 0 < c <;> simp [h]
  linarith [not_lt.mp h]

theorem gainsOf_nonneg (prices : List ℚ) :
    ∀ x ∈ gainsOf prices, 0 ≤ x := by
  intro x hx
  simp only [gainsOf, List.mem_map] at hx
  obtain ⟨c, hc, rfl⟩ := hx
  by_cases h : 0 < c <;> simp [h]
  linarith

theorem avg_loss_nonneg (prices : List ℚ) (period : ℕ) :
    0 ≤ avg_loss prices period := by
  unfold avg_loss
  apply div_nonneg
  · exact List.sum_nonneg fun x hx =>
      lossesOf_nonneg prices x (List.mem_of_mem_drop hx)
  · exact Nat.cast_nonneg period

theorem avg_gain_nonneg (prices : List ℚ) (period : ℕ) :
    0 ≤ avg_gain prices period := by
  unfold avg_gain
  apply div_nonneg
  · exact List.sum_nonneg fun x hx =>
      gainsOf_nonneg prices x (List.mem_of_mem_drop hx)
  · exact Nat.cast_nonneg period

/-- C9: for a positive RSI period, `calculate_rsi` returns the neutral 50
when fewer than `period + 1` samples exist; with enough samples its value
lies in [0, 100] and equals 100 exactly when the windowed average loss is
zero. -/
theorem claim9_rsi_bounds (prices : List ℚ) (period : ℕ) (hp : 0 < period) :
    (prices.length < period + 1 → calculate_rsi prices period = 50) ∧
    (period + 1 ≤ prices.length →
      0 ≤ calculate_rsi prices period ∧ calculate_rsi prices period ≤ 100 ∧
        (calculate_rsi prices period = 100 ↔ avg_loss prices period = 0)) := by
  constructor
  · intro h
    unfold calculate_rsi
    rw [if_pos h]
  · intro h
    have hlen : ¬ prices.length < period + 1 := not_lt.mpr h
    have hg : ¬ (gainsOf prices).length < period := by
      rw [gainsOf_length]; omega
    by_cases hL : avg_loss prices period = 0
    · unfold calculate_rsi
      rw [if_neg hlen, if_neg hg, if_pos hL]
      exact ⟨by norm_num, by norm_num, ⟨fun _ => hL, fun _ => rfl⟩⟩
    · have hL0 : 0 ≤ avg_loss prices period := avg_loss_nonneg prices period
      have hLpos : 0 < avg_loss prices period := lt_of_le_of_ne hL0 (Ne.symm hL)
      have hg0 : 0 ≤ avg_gain prices period := avg_gain_nonneg prices period
      have hrs : 0 ≤ avg_gain prices period / avg_loss prices period :=
        div_nonneg hg0 hL0
      have h1 : (0:ℚ) < 1 + avg_gain prices period / avg_loss prices period := by
        linarith
      have hdivpos :
          0 < 100 / (1 + avg_gain prices period / avg_loss prices period) := by
        positivity
      have hdivle :
          100 / (1 + avg_gain prices period / avg_loss prices period) ≤ 100 :=
        div_le_self (by norm_num) (by linarith)
      unfold calculate_rsi
      rw [if_neg hlen, if_neg hg, if_neg hL]
      refine ⟨by linarith, by linarith, ?_, fun hR => absurd hR hL⟩
      intro heq
      exfalso
      linarith

/-- Witness for C9 on the rising sequence [1, 2, 3] with period 2: no
losses, so RSI is 100 and the characterization holds. -/
theorem claim9_rsi_bounds_witness :
    (0:ℚ) ≤ calculate_rsi [1, 2, 3] 2 ∧ calculate_rsi [1, 2, 3] 2 ≤ 100 ∧
      (calculate_rsi [1, 2, 3] 2 = 100 ↔ avg_loss [1, 2, 3] 2 = 0) :=
  (claim9_rsi_bounds [1, 2, 3] 2 (by norm_num)).2 (by norm_num)

/-- C5 counterexample: connectivity verification is listed as a failing
step, yet when the probe fails (and nothing raises) `execute_trade`
persists no FailedTradeRecord and does not return the not-executed result
— it proceeds and returns the placed order. -/
theorem claim5_connectivity_step_counterexample :
    envPingDown.exch.ping_ok = false ∧
      (execute_trade envPingDown sigBuy "s5" settingsOn).1 ≠ none ∧
      (execute_trade envPingDown sigBuy "s5" settingsOn).2.filter
          Effect.isFailedStore = [] := by
  refine ⟨rfl, ?_, ?_⟩ <;>
    simp [execute_trade, execute_trade_attempt, execute_buy_signal,
      envPingDown, sigBuy, settingsOn, calcq_lotBTC, Effect.isFailedStore,
      show ¬ (1000:ℚ) < 20 by norm_num]
